import Mathlib

/-!
# Verification of the Kinera rep-detection pipeline

Shallow embedding of the repository's core: the `SimpleRepDetector`
hysteresis state machine (`src/quantprocess/RepTracker.py`, duplicated in
`src/cv/datahandler.py` and `src/cv/cv-view.py`), the `rep_summary`
function, the MJPEG streaming handler (`src/cv/cv_stream_server.py`), and
the live-session start state (`src/app/live_session.py`).

Python floats are embedded as rationals (all arithmetic the code performs —
mean of two angles, subtraction, division by constants — is exact),
dictionaries as functions into `Option`, and Python `None` as `Option.none`.
-/

attribute [local semireducible] Rat.add Rat.sub Rat.mul Rat.inv

/-- One `{"angle": .., "timestamp": ..}` dict appended to `current_rep`. -/
structure Sample where
  angle : ℚ
  timestamp : ℚ
deriving DecidableEq, Repr

/-- The four states of `SimpleRepDetector`. -/
inductive DetState where
  | WAITING_TOP
  | DESCENDING
  | BOTTOM_REACHED
  | ASCENDING
deriving DecidableEq, Repr

/-- The fields of a `SimpleRepDetector` instance.  `J` is the type of joint
names (`str` in the source); `joints` is the tracked pair. -/
structure Detector (J : Type) where
  min_threshold : ℚ
  max_threshold : ℚ
  joints : J × J
  state : DetState
  prev_angle : Option ℚ
  current_rep : List Sample
deriving DecidableEq, Repr

/-- `SimpleRepDetector.__init__`. -/
def mkDetector {J : Type} (minT maxT : ℚ) (js : J × J) : Detector J :=
  ⟨minT, maxT, js, DetState.WAITING_TOP, none, []⟩

/-- `SimpleRepDetector._get_angle`: mean of the two tracked joints, `None`
if either is absent from the mapping. -/
def getAngle {J : Type} (d : Detector J) (joint_angles : J → Option ℚ) : Option ℚ :=
  match joint_angles d.joints.1, joint_angles d.joints.2 with
  | some a, some b => some ((a + b) / 2)
  | _, _ => none

/-- The state-machine core of `SimpleRepDetector.feed`, reached once the
angle is present and `prev_angle` is seeded with `prev`.  Returns the
updated detector and the emitted rep, if any. -/
def stepMachine {J : Type} (d : Detector J) (angle prev timestamp : ℚ) :
    Detector J × Option (List Sample) :=
  let increasing := prev < angle
  let s : Sample := ⟨angle, timestamp⟩
  match d.state with
  | DetState.WAITING_TOP =>
    if d.max_threshold ≤ angle then
      ({ d with
          state := DetState.DESCENDING
          current_rep := [s]
          prev_angle := some angle }, none)
    else
      ({ d with prev_angle := some angle }, none)
  | DetState.DESCENDING =>
    if angle ≤ d.min_threshold then
      ({ d with
          state := DetState.BOTTOM_REACHED
          current_rep := d.current_rep ++ [s]
          prev_angle := some angle }, none)
    else
      ({ d with
          current_rep := d.current_rep ++ [s]
          prev_angle := some angle }, none)
  | DetState.BOTTOM_REACHED =>
    if increasing then
      ({ d with
          state := DetState.ASCENDING
          current_rep := d.current_rep ++ [s]
          prev_angle := some angle }, none)
    else
      ({ d with
          current_rep := d.current_rep ++ [s]
          prev_angle := some angle }, none)
  | DetState.ASCENDING =>
    if d.max_threshold ≤ angle then
      ({ d with
          state := DetState.DESCENDING
          current_rep := []
          prev_angle := some angle }, some (d.current_rep ++ [s]))
    else
      ({ d with
          current_rep := d.current_rep ++ [s]
          prev_angle := some angle }, none)

/-- `SimpleRepDetector.feed`: resolve the angle (absent ⇒ no-op), seed
`prev_angle` on the first present sample, then run the state machine. -/
def feed {J : Type} (d : Detector J) (joint_angles : J → Option ℚ)
    (timestamp : ℚ) : Detector J × Option (List Sample) :=
  match getAngle d joint_angles with
  | none => (d, none)
  | some angle =>
    match d.prev_angle with
    | none => ({ d with prev_angle := some angle }, none)
    | some prev => stepMachine d angle prev timestamp

/-- Feed a list of `(joint_angles, timestamp)` ticks in order, collecting
every emitted rep together with the timestamp of the tick that emitted it. -/
def runFeed {J : Type} (d : Detector J) :
    List ((J → Option ℚ) × ℚ) → Detector J × List (ℚ × List Sample)
  | [] => (d, [])
  | (ja, t) :: rest =>
    let fr := feed d ja t
    let rr := runFeed fr.1 rest
    match fr.2 with
    | none => rr
    | some e => (rr.1, (t, e) :: rr.2)

/-- A joint-angle mapping reporting the same angle for every joint — both
tracked joints present and equal, as in the spec's scenarios. -/
def mkJA {J : Type} (a : ℚ) : J → Option ℚ := fun _ => some a

/-- Turn a list of `(angle, timestamp)` pairs into feed inputs where both
tracked joints report exactly that angle. -/
def toInputs {J : Type} (ps : List (ℚ × ℚ)) : List ((J → Option ℚ) × ℚ) :=
  ps.map (fun p => (mkJA p.1, p.2))

/-- The summary dict produced by `rep_summary`. -/
structure RepSummary where
  min_angle : ℚ
  max_angle : ℚ
  duration : ℚ
  range_of_motion : ℚ
  num_frames : ℕ
deriving DecidableEq, Repr

/-- `rep_summary` (`src/cv/datahandler.py` / `src/cv/cv-view.py`): Python's
`min`/`max` over the angle list, `(times[-1] - times[0]) / 1000.0`,
`max - min`, `len(rep)`.  Python raises on an empty list, embedded as
`none`. -/
def rep_summary : List Sample → Option RepSummary
  | [] => none
  | p :: ps =>
    let lastS := (p :: ps).getLast (List.cons_ne_nil p ps)
    let mn := (ps.map Sample.angle).foldl min p.angle
    let mx := (ps.map Sample.angle).foldl max p.angle
    some ⟨mn, mx, (lastS.timestamp - p.timestamp) / 1000, mx - mn, (p :: ps).length⟩

/-- The angle reported by the last tick of `ps`, defaulting to `p` when
`ps` is empty — the value `prev_angle` holds after feeding `ps`. -/
def lastAngle (p : ℚ) (ps : List (ℚ × ℚ)) : ℚ :=
  ps.foldl (fun _ x => x.1) p

/-- Invariant used for the first emitted rep: until a rep has been emitted,
either the detector is still waiting for the first top crossing, or the
accumulated samples start with the top-crossing sample. -/
def InvTop {J : Type} (d : Detector J) : Prop :=
  d.state = DetState.WAITING_TOP ∨
    ∃ s rest, d.current_rep = s :: rest ∧ d.max_threshold ≤ s.angle

/-- Invariant for the bottom crossing: past `BOTTOM_REACHED`, the
accumulated samples contain one at or below `min_threshold`. -/
def InvBot {J : Type} (d : Detector J) : Prop :=
  (d.state = DetState.BOTTOM_REACHED ∨ d.state = DetState.ASCENDING) →
    ∃ s ∈ d.current_rep, s.angle ≤ d.min_threshold

/-- The MJPEG boundary token of `cv_stream_server.py`. -/
def MJPEG_BOUNDARY : String := "frame"

/-- Status line and headers sent by the streaming HTTP handler. -/
structure HttpResponse where
  status : ℕ
  headers : List (String × String)
deriving DecidableEq, Repr

/-- `CVStreamHandler.do_GET`: `/cv-stream` gets a 200 multipart response
(the handler then loops writing parts); any other path gets
`send_error(404)`. -/
def do_GET (path : String) : HttpResponse :=
  if path = "/cv-stream" then
    ⟨200, [("Content-Type", "multipart/x-mixed-replace; boundary=" ++ MJPEG_BOUNDARY),
           ("Cache-Control", "no-store"),
           ("Access-Control-Allow-Origin", "*")]⟩
  else
    ⟨404, []⟩

/-- `CVStreamHandler.do_OPTIONS`: 204 plus permissive CORS headers. -/
def do_OPTIONS : HttpResponse :=
  ⟨204, [("Access-Control-Allow-Origin", "*"),
         ("Access-Control-Allow-Methods", "GET, OPTIONS")]⟩

/-- One multipart body part as written by the `do_GET` streaming loop:
`Content-Type: image/jpeg`, `Content-Length: len(jpeg)`, then the bytes. -/
structure MjpegPart where
  part_content_type : String
  part_content_length : ℕ
  part_body : List ℕ
deriving DecidableEq, Repr

/-- Construction of one part from a JPEG byte string. -/
def mjpegPart (jpeg : List ℕ) : MjpegPart :=
  ⟨"image/jpeg", jpeg.length, jpeg⟩

/-- The session-state fields of `LiveSessionPage` (`src/app/live_session.py`):
workout id, rep count, whether a start time is recorded, the running flag,
whether the CV worker thread was started, and whether the UI timer runs. -/
structure SessionState where
  workout_id : Option String
  rep_count : ℕ
  session_started : Bool
  is_running : Bool
  cv_thread_started : Bool
  ui_timer_active : Bool
deriving DecidableEq, Repr

/-- `LiveSessionPage.start`: stores the workout id, zeroes the rep count,
records the start time, sets `is_running = True`, starts the CV worker
thread (`cv_thread.start_workout`) and the UI timer.  The source performs
no camera open or check inside `start`; the `camera_ok` argument (whether
the device could be opened) is therefore never consulted. -/
def LiveSessionPage.start (_s : SessionState) (wid : String)
    (_camera_ok : Bool) : SessionState :=
  { workout_id := some wid
    rep_count := 0
    session_started := true
    is_running := true
    cv_thread_started := true
    ui_timer_active := true }

/-- `LiveSessionPage._on_error`: the CV-thread error signal handler only
updates the feedback and video labels; no session-state field changes. -/
def onError (s : SessionState) : SessionState := s

/-- Ordered events of `cv_stream_server.main` together with `run_cv_loop`:
the worker thread is spawned first, unconditionally; only inside the worker
does `create_view_core` try to open the camera, and on failure the worker
prints and returns while the HTTP server keeps serving. -/
inductive ServerEvent where
  | spawn_worker
  | cv_init_failed
  | serve
deriving DecidableEq, Repr

/-- Event trace of `cv_stream_server.main` as a function of whether the
camera opens. -/
def mainEvents (camera_ok : Bool) : List ServerEvent :=
  ServerEvent.spawn_worker ::
    (if camera_ok then [ServerEvent.serve]
     else [ServerEvent.cv_init_failed, ServerEvent.serve])

/-! ## Helper lemmas -/

theorem getAngle_mkJA {J : Type} (d : Detector J) (a : ℚ) :
    getAngle d (mkJA a) = some a := by
  show some ((a + a) / 2) = some a
  have h : (a + a) / 2 = a := by ring
  rw [h]

theorem feed_absent {J : Type} (d : Detector J) (ja : J → Option ℚ) (t : ℚ)
    (h : getAngle d ja = none) : feed d ja t = (d, none) := by
  simp [feed, h]

theorem feed_seed {J : Type} (minT maxT : ℚ) (js : J × J) (st : DetState)
    (cr : List Sample) (a t : ℚ) :
    feed (⟨minT, maxT, js, st, none, cr⟩ : Detector J) (mkJA a) t =
      (⟨minT, maxT, js, st, some a, cr⟩, none) := by
  simp [feed, getAngle_mkJA]

theorem feed_waiting_stay {J : Type} (minT maxT : ℚ) (js : J × J) (p : ℚ)
    (cr : List Sample) (a t : ℚ) (h : a < maxT) :
    feed (⟨minT, maxT, js, DetState.WAITING_TOP, some p, cr⟩ : Detector J) (mkJA a) t =
      (⟨minT, maxT, js, DetState.WAITING_TOP, some a, cr⟩, none) := by
  simp [feed, getAngle_mkJA, stepMachine, not_le.mpr h]

theorem feed_top_cross {J : Type} (minT maxT : ℚ) (js : J × J) (p : ℚ)
    (cr : List Sample) (a t : ℚ) (h : maxT ≤ a) :
    feed (⟨minT, maxT, js, DetState.WAITING_TOP, some p, cr⟩ : Detector J) (mkJA a) t =
      (⟨minT, maxT, js, DetState.DESCENDING, some a, [⟨a, t⟩]⟩, none) := by
  simp [feed, getAngle_mkJA, stepMachine, h]

theorem feed_desc_stay {J : Type} (minT maxT : ℚ) (js : J × J) (p : ℚ)
    (cr : List Sample) (a t : ℚ) (h : minT < a) :
    feed (⟨minT, maxT, js, DetState.DESCENDING, some p, cr⟩ : Detector J) (mkJA a) t =
      (⟨minT, maxT, js, DetState.DESCENDING, some a, cr ++ [⟨a, t⟩]⟩, none) := by
  simp [feed, getAngle_mkJA, stepMachine, not_le.mpr h]

theorem feed_desc_bottom {J : Type} (minT maxT : ℚ) (js : J × J) (p : ℚ)
    (cr : List Sample) (a t : ℚ) (h : a ≤ minT) :
    feed (⟨minT, maxT, js, DetState.DESCENDING, some p, cr⟩ : Detector J) (mkJA a) t =
      (⟨minT, maxT, js, DetState.BOTTOM_REACHED, some a, cr ++ [⟨a, t⟩]⟩, none) := by
  simp [feed, getAngle_mkJA, stepMachine, h]

theorem feed_bottom_stay {J : Type} (minT maxT : ℚ) (js : J × J) (p : ℚ)
    (cr : List Sample) (a t : ℚ) (h : a ≤ p) :
    feed (⟨minT, maxT, js, DetState.BOTTOM_REACHED, some p, cr⟩ : Detector J) (mkJA a) t =
      (⟨minT, maxT, js, DetState.BOTTOM_REACHED, some a, cr ++ [⟨a, t⟩]⟩, none) := by
  simp [feed, getAngle_mkJA, stepMachine, not_lt.mpr h]

theorem feed_bottom_inc {J : Type} (minT maxT : ℚ) (js : J × J) (p : ℚ)
    (cr : List Sample) (a t : ℚ) (h : p < a) :
    feed (⟨minT, maxT, js, DetState.BOTTOM_REACHED, some p, cr⟩ : Detector J) (mkJA a) t =
      (⟨minT, maxT, js, DetState.ASCENDING, some a, cr ++ [⟨a, t⟩]⟩, none) := by
  simp [feed, getAngle_mkJA, stepMachine, h]

theorem feed_asc_stay {J : Type} (minT maxT : ℚ) (js : J × J) (p : ℚ)
    (cr : List Sample) (a t : ℚ) (h : a < maxT) :
    feed (⟨minT, maxT, js, DetState.ASCENDING, some p, cr⟩ : Detector J) (mkJA a) t =
      (⟨minT, maxT, js, DetState.ASCENDING, some a, cr ++ [⟨a, t⟩]⟩, none) := by
  simp [feed, getAngle_mkJA, stepMachine, not_le.mpr h]

theorem feed_asc_close {J : Type} (minT maxT : ℚ) (js : J × J) (p : ℚ)
    (cr : List Sample) (a t : ℚ) (h : maxT ≤ a) :
    feed (⟨minT, maxT, js, DetState.ASCENDING, some p, cr⟩ : Detector J) (mkJA a) t =
      (⟨minT, maxT, js, DetState.DESCENDING, some a, []⟩, some (cr ++ [⟨a, t⟩])) := by
  simp [feed, getAngle_mkJA, stepMachine, h]

theorem toInputs_nil {J : Type} : toInputs ([] : List (ℚ × ℚ)) = ([] : List ((J → Option ℚ) × ℚ)) := rfl

theorem toInputs_cons {J : Type} (x : ℚ × ℚ) (xs : List (ℚ × ℚ)) :
    (toInputs (x :: xs) : List ((J → Option ℚ) × ℚ)) = (mkJA x.1, x.2) :: toInputs xs := rfl

theorem toInputs_append {J : Type} (xs ys : List (ℚ × ℚ)) :
    (toInputs (xs ++ ys) : List ((J → Option ℚ) × ℚ)) = toInputs xs ++ toInputs ys := by
  simp [toInputs]

theorem runFeed_cons_none {J : Type} {d d1 : Detector J} {ja : J → Option ℚ} {t : ℚ}
    {rest : List ((J → Option ℚ) × ℚ)} (h : feed d ja t = (d1, none)) :
    runFeed d ((ja, t) :: rest) = runFeed d1 rest := by
  simp [runFeed, h]

theorem runFeed_cons_some {J : Type} {d d1 : Detector J} {ja : J → Option ℚ} {t : ℚ}
    {rest : List ((J → Option ℚ) × ℚ)} {e : List Sample}
    (h : feed d ja t = (d1, some e)) :
    runFeed d ((ja, t) :: rest) =
      ((runFeed d1 rest).1, (t, e) :: (runFeed d1 rest).2) := by
  simp [runFeed, h]

theorem runFeed_append {J : Type} (d : Detector J)
    (xs ys : List ((J → Option ℚ) × ℚ)) :
    runFeed d (xs ++ ys) =
      ((runFeed (runFeed d xs).1 ys).1,
       (runFeed d xs).2 ++ (runFeed (runFeed d xs).1 ys).2) := by
  induction xs generalizing d with
  | nil => simp [runFeed]
  | cons x xs ih =>
    obtain ⟨ja, t⟩ := x
    rcases h : feed d ja t with ⟨d1, ev⟩
    cases ev with
    | none =>
      rw [List.cons_append, runFeed_cons_none h, runFeed_cons_none h, ih]
    | some e =>
      rw [List.cons_append, runFeed_cons_some h, runFeed_cons_some h, ih]
      simp

theorem run_waiting {J : Type} (minT maxT : ℚ) (js : J × J) (cr : List Sample)
    (ps : List (ℚ × ℚ)) (p : ℚ) (h : ∀ x ∈ ps, x.1 < maxT) :
    ∃ q, runFeed (⟨minT, maxT, js, DetState.WAITING_TOP, some p, cr⟩ : Detector J)
        (toInputs ps) =
      (⟨minT, maxT, js, DetState.WAITING_TOP, some q, cr⟩, []) := by
  induction ps generalizing p with
  | nil => exact ⟨p, rfl⟩
  | cons x xs ih =>
    obtain ⟨a, t⟩ := x
    have ha : a < maxT := h (a, t) (List.mem_cons_self _ _)
    rw [toInputs_cons, runFeed_cons_none (feed_waiting_stay minT maxT js p cr a t ha)]
    exact ih a (fun y hy => h y (List.mem_cons_of_mem _ hy))

theorem run_descending {J : Type} (minT maxT : ℚ) (js : J × J) (cr : List Sample)
    (ps : List (ℚ × ℚ)) (p : ℚ) (h : ∀ x ∈ ps, minT < x.1) :
    ∃ q cr2, runFeed (⟨minT, maxT, js, DetState.DESCENDING, some p, cr⟩ : Detector J)
        (toInputs ps) =
      (⟨minT, maxT, js, DetState.DESCENDING, some q, cr2⟩, []) := by
  induction ps generalizing p cr with
  | nil => exact ⟨p, cr, rfl⟩
  | cons x xs ih =>
    obtain ⟨a, t⟩ := x
    have ha : minT < a := h (a, t) (List.mem_cons_self _ _)
    rw [toInputs_cons, runFeed_cons_none (feed_desc_stay minT maxT js p cr a t ha)]
    exact ih (cr ++ [⟨a, t⟩]) a (fun y hy => h y (List.mem_cons_of_mem _ hy))

theorem run_bottom {J : Type} (minT maxT : ℚ) (js : J × J) (cr : List Sample)
    (ps : List (ℚ × ℚ)) (p : ℚ)
    (h : List.Chain (fun a b => b ≤ a) p (ps.map Prod.fst)) :
    ∃ cr2, runFeed (⟨minT, maxT, js, DetState.BOTTOM_REACHED, some p, cr⟩ : Detector J)
        (toInputs ps) =
      (⟨minT, maxT, js, DetState.BOTTOM_REACHED, some (lastAngle p ps), cr2⟩, []) := by
  induction ps generalizing p cr with
  | nil => exact ⟨cr, rfl⟩
  | cons x xs ih =>
    obtain ⟨a, t⟩ := x
    rw [List.map_cons, List.chain_cons] at h
    rw [toInputs_cons, runFeed_cons_none (feed_bottom_stay minT maxT js p cr a t h.1)]
    exact ih (cr ++ [⟨a, t⟩]) a h.2

theorem run_ascending {J : Type} (minT maxT : ℚ) (js : J × J) (cr : List Sample)
    (ps : List (ℚ × ℚ)) (p : ℚ) (h : ∀ x ∈ ps, x.1 < maxT) :
    ∃ q cr2, runFeed (⟨minT, maxT, js, DetState.ASCENDING, some p, cr⟩ : Detector J)
        (toInputs ps) =
      (⟨minT, maxT, js, DetState.ASCENDING, some q, cr2⟩, []) := by
  induction ps generalizing p cr with
  | nil => exact ⟨p, cr, rfl⟩
  | cons x xs ih =>
    obtain ⟨a, t⟩ := x
    have ha : a < maxT := h (a, t) (List.mem_cons_self _ _)
    rw [toInputs_cons, runFeed_cons_none (feed_asc_stay minT maxT js p cr a t ha)]
    exact ih (cr ++ [⟨a, t⟩]) a (fun y hy => h y (List.mem_cons_of_mem _ hy))

theorem run_cycle {J : Type} (minT maxT : ℚ) (js : J × J) (p : ℚ) (cr : List Sample)
    (mid : List (ℚ × ℚ)) (abot : ℚ × ℚ) (bot : List (ℚ × ℚ))
    (ainc : ℚ × ℚ) (asc : List (ℚ × ℚ)) (aclose : ℚ × ℚ)
    (hmid : ∀ x ∈ mid, minT < x.1)
    (habot : abot.1 ≤ minT)
    (hbot : List.Chain (fun a b => b ≤ a) abot.1 (bot.map Prod.fst))
    (hinc : lastAngle abot.1 bot < ainc.1)
    (hasc : ∀ x ∈ asc, x.1 < maxT)
    (hclose : maxT ≤ aclose.1) :
    ∃ e, runFeed (⟨minT, maxT, js, DetState.DESCENDING, some p, cr⟩ : Detector J)
        (toInputs (mid ++ abot :: (bot ++ ainc :: (asc ++ [aclose])))) =
      (⟨minT, maxT, js, DetState.DESCENDING, some aclose.1, []⟩, [(aclose.2, e)]) := by
  obtain ⟨q1, cr1, h1⟩ := run_descending minT maxT js cr mid p hmid
  rw [toInputs_append, runFeed_append, h1]
  rw [toInputs_cons,
    runFeed_cons_none (feed_desc_bottom minT maxT js q1 cr1 abot.1 abot.2 habot)]
  obtain ⟨cr2, h2⟩ :=
    run_bottom minT maxT js (cr1 ++ [⟨abot.1, abot.2⟩]) bot abot.1 hbot
  rw [toInputs_append, runFeed_append, h2]
  rw [toInputs_cons,
    runFeed_cons_none (feed_bottom_inc minT maxT js (lastAngle abot.1 bot) cr2
      ainc.1 ainc.2 hinc)]
  obtain ⟨q3, cr3, h3⟩ :=
    run_ascending minT maxT js (cr2 ++ [⟨ainc.1, ainc.2⟩]) asc ainc.1 hasc
  rw [toInputs_append, runFeed_append, h3]
  rw [toInputs_cons,
    runFeed_cons_some (feed_asc_close minT maxT js q3 cr3 aclose.1 aclose.2 hclose)]
  exact ⟨cr3 ++ [⟨aclose.1, aclose.2⟩], by simp [runFeed]⟩

theorem run_to_first_top {J : Type} (minT maxT : ℚ) (js : J × J)
    (seed : ℚ × ℚ) (pre : List (ℚ × ℚ)) (atop : ℚ × ℚ)
    (hpre : ∀ x ∈ pre, x.1 < maxT) (htop : maxT ≤ atop.1) :
    runFeed (mkDetector minT maxT js) (toInputs (seed :: (pre ++ [atop]))) =
      (⟨minT, maxT, js, DetState.DESCENDING, some atop.1, [⟨atop.1, atop.2⟩]⟩, []) := by
  simp only [mkDetector]
  rw [toInputs_cons,
    runFeed_cons_none (feed_seed minT maxT js DetState.WAITING_TOP [] seed.1 seed.2)]
  obtain ⟨q, hq⟩ := run_waiting minT maxT js [] pre seed.1 hpre
  rw [toInputs_append, runFeed_append, hq]
  rw [toInputs_cons,
    runFeed_cons_none (feed_top_cross minT maxT js q [] atop.1 atop.2 htop)]
  simp [runFeed, toInputs_nil]

/-! ## Claim theorems -/

/-- C1: with `min_threshold = 120`, `max_threshold = 145` and both tracked
joints reporting the listed angle, feeding
`[110,125,145,130,115,120,140,150]` at timestamps `[0,...,700]` emits
exactly one rep, at the tick with timestamp 700, whose samples run from
timestamp 200 through 700, and whose `rep_summary` is
`{min_angle 115, max_angle 150, duration 1/2, range_of_motion 35,
num_frames 6}`. -/
theorem c1_pushup_scenario :
    runFeed (mkDetector 120 145 ((0 : ℕ), 1))
      (toInputs [(110, 0), (125, 100), (145, 200), (130, 300),
                 (115, 400), (120, 500), (140, 600), (150, 700)]) =
    (⟨120, 145, (0, 1), DetState.DESCENDING, some 150, []⟩,
     [(700, [⟨145, 200⟩, ⟨130, 300⟩, ⟨115, 400⟩, ⟨120, 500⟩,
             ⟨140, 600⟩, ⟨150, 700⟩])]) ∧
    rep_summary [⟨145, 200⟩, ⟨130, 300⟩, ⟨115, 400⟩, ⟨120, 500⟩,
                 ⟨140, 600⟩, ⟨150, 700⟩] =
    some ⟨115, 150, 1/2, 35, 6⟩ := by decide

/-- C2: an angle sequence that (after the seeding tick) stays below
`max_threshold`, crosses `≥ max_threshold`, stays above `min_threshold`,
crosses `≤ min_threshold`, does not increase for a while, strictly
increases, stays below `max_threshold`, then crosses `≥ max_threshold`
again, makes `feed` emit exactly one rep; afterwards the state is
`DESCENDING` (not `WAITING_TOP`), and appending a second
descend–increase–top cycle emits exactly one more rep without re-arming
through `WAITING_TOP`. -/
theorem c2_one_rep_per_cycle_back_to_back {J : Type} (minT maxT : ℚ) (js : J × J)
    (seed : ℚ × ℚ) (pre mid bot asc mid2 bot2 asc2 : List (ℚ × ℚ))
    (atop abot ainc aclose abot2 ainc2 aclose2 : ℚ × ℚ)
    (hpre : ∀ x ∈ pre, x.1 < maxT) (htop : maxT ≤ atop.1)
    (hmid : ∀ x ∈ mid, minT < x.1) (habot : abot.1 ≤ minT)
    (hbot : List.Chain (fun a b => b ≤ a) abot.1 (bot.map Prod.fst))
    (hinc : lastAngle abot.1 bot < ainc.1)
    (hasc : ∀ x ∈ asc, x.1 < maxT) (hclose : maxT ≤ aclose.1)
    (hmid2 : ∀ x ∈ mid2, minT < x.1) (habot2 : abot2.1 ≤ minT)
    (hbot2 : List.Chain (fun a b => b ≤ a) abot2.1 (bot2.map Prod.fst))
    (hinc2 : lastAngle abot2.1 bot2 < ainc2.1)
    (hasc2 : ∀ x ∈ asc2, x.1 < maxT) (hclose2 : maxT ≤ aclose2.1) :
    ((runFeed (mkDetector minT maxT js)
        (toInputs ((seed :: (pre ++ [atop])) ++
          (mid ++ abot :: (bot ++ ainc :: (asc ++ [aclose])))))).2.length = 1 ∧
     (runFeed (mkDetector minT maxT js)
        (toInputs ((seed :: (pre ++ [atop])) ++
          (mid ++ abot :: (bot ++ ainc :: (asc ++ [aclose])))))).1.state =
       DetState.DESCENDING) ∧
    (runFeed (mkDetector minT maxT js)
        (toInputs ((seed :: (pre ++ [atop])) ++
          (mid ++ abot :: (bot ++ ainc :: (asc ++ [aclose]))) ++
          (mid2 ++ abot2 :: (bot2 ++ ainc2 :: (asc2 ++ [aclose2])))))).2.length =
      2 := by
  have H1 := run_to_first_top minT maxT js seed pre atop hpre htop
  obtain ⟨e1, He1⟩ := run_cycle minT maxT js atop.1 [⟨atop.1, atop.2⟩]
    mid abot bot ainc asc aclose hmid habot hbot hinc hasc hclose
  obtain ⟨e2, He2⟩ := run_cycle minT maxT js aclose.1 []
    mid2 abot2 bot2 ainc2 asc2 aclose2 hmid2 habot2 hbot2 hinc2 hasc2 hclose2
  refine ⟨⟨?_, ?_⟩, ?_⟩
  · rw [toInputs_append, runFeed_append, H1, He1]
    simp
  · rw [toInputs_append, runFeed_append, H1, He1]
  · rw [toInputs_append, toInputs_append, runFeed_append, runFeed_append,
      H1, He1]
    simp [He2]

/-- Witness for C2 at a concrete two-cycle angle sequence. -/
theorem c2_one_rep_per_cycle_back_to_back_witness :
    ((runFeed (mkDetector 120 145 ((0 : ℕ), 1))
        (toInputs ((((150 : ℚ), (0 : ℚ)) :: ([] ++ [((150 : ℚ), (100 : ℚ))])) ++
          ([] ++ ((115 : ℚ), (200 : ℚ)) :: ([] ++ ((125 : ℚ), (300 : ℚ)) ::
            ([] ++ [((150 : ℚ), (400 : ℚ))])))))).2.length = 1 ∧
     (runFeed (mkDetector 120 145 ((0 : ℕ), 1))
        (toInputs ((((150 : ℚ), (0 : ℚ)) :: ([] ++ [((150 : ℚ), (100 : ℚ))])) ++
          ([] ++ ((115 : ℚ), (200 : ℚ)) :: ([] ++ ((125 : ℚ), (300 : ℚ)) ::
            ([] ++ [((150 : ℚ), (400 : ℚ))])))))).1.state =
       DetState.DESCENDING) ∧
    (runFeed (mkDetector 120 145 ((0 : ℕ), 1))
        (toInputs ((((150 : ℚ), (0 : ℚ)) :: ([] ++ [((150 : ℚ), (100 : ℚ))])) ++
          ([] ++ ((115 : ℚ), (200 : ℚ)) :: ([] ++ ((125 : ℚ), (300 : ℚ)) ::
            ([] ++ [((150 : ℚ), (400 : ℚ))]))) ++
          ([] ++ ((115 : ℚ), (500 : ℚ)) :: ([] ++ ((125 : ℚ), (600 : ℚ)) ::
            ([] ++ [((150 : ℚ), (700 : ℚ))])))))).2.length = 2 :=
  c2_one_rep_per_cycle_back_to_back 120 145 ((0 : ℕ), 1)
    (150, 0) [] [] [] [] [] [] []
    (150, 100) (115, 200) (125, 300) (150, 400) (115, 500) (125, 600) (150, 700)
    (by simp) (by decide) (by simp) (by decide) List.Chain.nil (by decide)
    (by simp) (by decide) (by simp) (by decide) List.Chain.nil (by decide)
    (by simp) (by decide)

/-- C3: a feed call whose angle is absent (either tracked joint missing
from the mapping) returns no rep and leaves the detector — state,
accumulated samples, `prev_angle` — exactly as it was. -/
theorem c3_absent_angle_is_noop {J : Type} (d : Detector J)
    (ja : J → Option ℚ) (t : ℚ)
    (h : ja d.joints.1 = none ∨ ja d.joints.2 = none) :
    feed d ja t = (d, none) := by
  have hg : getAngle d ja = none := by
    rcases h with h | h
    · simp [getAngle, h]
    · cases h1 : ja d.joints.1 <;> simp [getAngle, h, h1]
  exact feed_absent d ja t hg

/-- Witness for C3: a mapping with both joints absent. -/
theorem c3_absent_angle_is_noop_witness :
    feed (mkDetector 120 145 ((0 : ℕ), 1)) (fun _ => (none : Option ℚ)) 0 =
      (mkDetector 120 145 ((0 : ℕ), 1), none) :=
  c3_absent_angle_is_noop _ _ 0 (Or.inl rfl)

/-- C6: threshold comparisons are inclusive — with `prev_angle` seeded, an
angle exactly equal to `max_threshold` triggers `WAITING_TOP→DESCENDING`
and the rep-closing `ASCENDING→DESCENDING` transition (emitting the rep),
and an angle exactly equal to `min_threshold` triggers
`DESCENDING→BOTTOM_REACHED`. -/
theorem c6_inclusive_threshold_crossings {J : Type} (d : Detector J)
    (ja : J → Option ℚ) (t p : ℚ) (hprev : d.prev_angle = some p) :
    (d.state = DetState.WAITING_TOP → getAngle d ja = some d.max_threshold →
      (feed d ja t).1.state = DetState.DESCENDING) ∧
    (d.state = DetState.ASCENDING → getAngle d ja = some d.max_threshold →
      (feed d ja t).1.state = DetState.DESCENDING ∧
      (feed d ja t).2 = some (d.current_rep ++ [⟨d.max_threshold, t⟩])) ∧
    (d.state = DetState.DESCENDING → getAngle d ja = some d.min_threshold →
      (feed d ja t).1.state = DetState.BOTTOM_REACHED) := by
  refine ⟨fun hs hg => ?_, fun hs hg => ?_, fun hs hg => ?_⟩ <;>
    simp [feed, hg, hprev, stepMachine, hs, le_refl]

/-- Witness for C6 at the three relevant states with angles exactly at the
thresholds. -/
theorem c6_inclusive_threshold_crossings_witness :
    (feed (⟨120, 145, ((0 : ℕ), 1), DetState.WAITING_TOP, some 130, []⟩ : Detector ℕ)
        (mkJA 145) 2).1.state = DetState.DESCENDING ∧
    ((feed (⟨120, 145, ((0 : ℕ), 1), DetState.ASCENDING, some 130, [⟨115, 1⟩]⟩ : Detector ℕ)
        (mkJA 145) 2).1.state = DetState.DESCENDING ∧
     (feed (⟨120, 145, ((0 : ℕ), 1), DetState.ASCENDING, some 130, [⟨115, 1⟩]⟩ : Detector ℕ)
        (mkJA 145) 2).2 = some ([⟨115, 1⟩] ++ [⟨145, 2⟩])) ∧
    (feed (⟨120, 145, ((0 : ℕ), 1), DetState.DESCENDING, some 130, [⟨150, 0⟩]⟩ : Detector ℕ)
        (mkJA 120) 2).1.state = DetState.BOTTOM_REACHED :=
  ⟨(c6_inclusive_threshold_crossings
      (⟨120, 145, ((0 : ℕ), 1), DetState.WAITING_TOP, some 130, []⟩ : Detector ℕ)
      (mkJA 145) 2 130 rfl).1 rfl (by decide),
   (c6_inclusive_threshold_crossings
      (⟨120, 145, ((0 : ℕ), 1), DetState.ASCENDING, some 130, [⟨115, 1⟩]⟩ : Detector ℕ)
      (mkJA 145) 2 130 rfl).2.1 rfl (by decide),
   (c6_inclusive_threshold_crossings
      (⟨120, 145, ((0 : ℕ), 1), DetState.DESCENDING, some 130, [⟨150, 0⟩]⟩ : Detector ℕ)
      (mkJA 120) 2 130 rfl).2.2 rfl (by decide)⟩

theorem feed_fields {J : Type} (d : Detector J) (ja : J → Option ℚ) (t : ℚ) :
    (feed d ja t).1.min_threshold = d.min_threshold ∧
    (feed d ja t).1.max_threshold = d.max_threshold := by
  rcases hg : getAngle d ja with _ | a
  · simp [feed, hg]
  · rcases hp : d.prev_angle with _ | p
    · simp [feed, hg, hp]
    · simp only [feed, hg, hp]
      unfold stepMachine
      cases d.state <;> dsimp only <;> split_ifs <;> simp

theorem feed_emit {J : Type} {d d' : Detector J} {ja : J → Option ℚ} {t : ℚ}
    {e : List Sample} (h : feed d ja t = (d', some e)) :
    d.state = DetState.ASCENDING ∧
    ∃ a, getAngle d ja = some a ∧ d.max_threshold ≤ a ∧
      e = d.current_rep ++ [⟨a, t⟩] := by
  rcases hg : getAngle d ja with _ | a
  · rw [feed_absent d ja t hg] at h
    simp at h
  · rcases hp : d.prev_angle with _ | p
    · simp [feed, hg, hp] at h
    · simp only [feed, hg, hp] at h
      unfold stepMachine at h
      cases hs : d.state <;> rw [hs] at h <;> dsimp only at h <;>
        split_ifs at h with hc <;> simp at h
      exact ⟨rfl, a, rfl, hc, h.2.symm⟩

theorem feed_invTop_none {J : Type} (d : Detector J) (ja : J → Option ℚ) (t : ℚ)
    (hI : InvTop d) (h : (feed d ja t).2 = none) : InvTop (feed d ja t).1 := by
  obtain ⟨mt, Mt, js, st, pa, cr⟩ := d
  simp only [InvTop] at hI ⊢
  rcases hg : getAngle (⟨mt, Mt, js, st, pa, cr⟩ : Detector J) ja with _ | a
  · rw [feed_absent _ ja t hg]
    exact hI
  · simp only [feed, hg] at h ⊢
    cases pa with
    | none => exact hI
    | some p =>
      unfold stepMachine at h ⊢
      cases st with
      | WAITING_TOP =>
        dsimp only at h ⊢
        split_ifs with hc
        · exact Or.inr ⟨⟨a, t⟩, [], rfl, hc⟩
        · exact Or.inl rfl
      | DESCENDING =>
        dsimp only at h ⊢
        rcases hI with hw | ⟨s, rest, hcr, hs⟩
        · simp at hw
        · split_ifs with hc <;>
            exact Or.inr ⟨s, rest ++ [⟨a, t⟩], by rw [hcr]; rfl, hs⟩
      | BOTTOM_REACHED =>
        dsimp only at h ⊢
        rcases hI with hw | ⟨s, rest, hcr, hs⟩
        · simp at hw
        · split_ifs with hc <;>
            exact Or.inr ⟨s, rest ++ [⟨a, t⟩], by rw [hcr]; rfl, hs⟩
      | ASCENDING =>
        dsimp only at h ⊢
        rcases hI with hw | ⟨s, rest, hcr, hs⟩
        · simp at hw
        · split_ifs at h ⊢ with hc
          exact Or.inr ⟨s, rest ++ [⟨a, t⟩], by rw [hcr]; rfl, hs⟩

theorem feed_invBot {J : Type} (d : Detector J) (ja : J → Option ℚ) (t : ℚ)
    (hI : InvBot d) : InvBot (feed d ja t).1 := by
  obtain ⟨mt, Mt, js, st, pa, cr⟩ := d
  simp only [InvBot] at hI ⊢
  rcases hg : getAngle (⟨mt, Mt, js, st, pa, cr⟩ : Detector J) ja with _ | a
  · rw [feed_absent _ ja t hg]
    exact hI
  · simp only [feed, hg]
    cases pa with
    | none => exact hI
    | some p =>
      unfold stepMachine
      cases st with
      | WAITING_TOP =>
        dsimp only
        split_ifs with hc <;>
          · intro hss
            rcases hss with h1 | h1 <;> simp at h1
      | DESCENDING =>
        dsimp only
        split_ifs with hc
        · exact fun _ => ⟨⟨a, t⟩, by simp, hc⟩
        · intro hss
          rcases hss with h1 | h1 <;> simp at h1
      | BOTTOM_REACHED =>
        dsimp only
        obtain ⟨s, hmem, hsle⟩ := hI (Or.inl rfl)
        split_ifs with hc <;>
          exact fun _ => ⟨s, List.mem_append_left _ hmem, hsle⟩
      | ASCENDING =>
        dsimp only
        obtain ⟨s, hmem, hsle⟩ := hI (Or.inr rfl)
        split_ifs with hc
        · intro hss
          rcases hss with h1 | h1 <;> simp at h1
        · exact fun _ => ⟨s, List.mem_append_left _ hmem, hsle⟩

theorem emit_contains_bottom {J : Type} {d d' : Detector J} {ja : J → Option ℚ}
    {t : ℚ} {e : List Sample} (hI : InvBot d) (h : feed d ja t = (d', some e)) :
    ∃ s ∈ e, s.angle ≤ d.min_threshold := by
  obtain ⟨hst, a, hg, ha, he⟩ := feed_emit h
  obtain ⟨s, hmem, hsle⟩ := hI (Or.inr hst)
  exact ⟨s, by rw [he]; exact List.mem_append_left _ hmem, hsle⟩

theorem emit_head_top {J : Type} {d d' : Detector J} {ja : J → Option ℚ}
    {t : ℚ} {e : List Sample} (hI : InvTop d) (h : feed d ja t = (d', some e)) :
    ∃ s rest, e = s :: rest ∧ d.max_threshold ≤ s.angle := by
  obtain ⟨hst, a, hg, ha, he⟩ := feed_emit h
  rcases hI with hw | ⟨s, rest, hcr, hs⟩
  · rw [hst] at hw
    simp at hw
  · exact ⟨s, rest ++ [⟨a, t⟩], by rw [he, hcr]; rfl, hs⟩

theorem emit_last_top {J : Type} {d d' : Detector J} {ja : J → Option ℚ}
    {t : ℚ} {e : List Sample} (h : feed d ja t = (d', some e)) :
    ∃ s, e.getLast? = some s ∧ d.max_threshold ≤ s.angle := by
  obtain ⟨hst, a, hg, ha, he⟩ := feed_emit h
  exact ⟨⟨a, t⟩, by rw [he]; simp, ha⟩

theorem runFeed_emissions_last_top {J : Type} :
    ∀ (inputs : List ((J → Option ℚ) × ℚ)) (d : Detector J),
      ∀ te ∈ (runFeed d inputs).2,
        ∃ s, te.2.getLast? = some s ∧ d.max_threshold ≤ s.angle := by
  intro inputs
  induction inputs with
  | nil =>
    intro d te hte
    simp [runFeed] at hte
  | cons x rest ih =>
    intro d te hte
    obtain ⟨ja, t⟩ := x
    rcases hf : feed d ja t with ⟨d1, ev⟩
    have hMt : d1.max_threshold = d.max_threshold := by
      have hff := (feed_fields d ja t).2
      rw [hf] at hff
      exact hff
    cases ev with
    | none =>
      rw [runFeed_cons_none hf] at hte
      obtain ⟨s, h1, h2⟩ := ih d1 te hte
      rw [hMt] at h2
      exact ⟨s, h1, h2⟩
    | some e =>
      rw [runFeed_cons_some hf] at hte
      rcases List.mem_cons.mp hte with heq | hmem
      · subst heq
        exact emit_last_top hf
      · obtain ⟨s, h1, h2⟩ := ih d1 te hmem
        rw [hMt] at h2
        exact ⟨s, h1, h2⟩

theorem runFeed_emissions_bottom {J : Type} :
    ∀ (inputs : List ((J → Option ℚ) × ℚ)) (d : Detector J), InvBot d →
      ∀ te ∈ (runFeed d inputs).2, ∃ s ∈ te.2, s.angle ≤ d.min_threshold := by
  intro inputs
  induction inputs with
  | nil =>
    intro d _ te hte
    simp [runFeed] at hte
  | cons x rest ih =>
    intro d hI te hte
    obtain ⟨ja, t⟩ := x
    rcases hf : feed d ja t with ⟨d1, ev⟩
    have hI1 : InvBot d1 := by
      have hfb := feed_invBot d ja t hI
      rw [hf] at hfb
      exact hfb
    have hmt : d1.min_threshold = d.min_threshold := by
      have hff := (feed_fields d ja t).1
      rw [hf] at hff
      exact hff
    cases ev with
    | none =>
      rw [runFeed_cons_none hf] at hte
      obtain ⟨s, h1, h2⟩ := ih d1 hI1 te hte
      rw [hmt] at h2
      exact ⟨s, h1, h2⟩
    | some e =>
      rw [runFeed_cons_some hf] at hte
      rcases List.mem_cons.mp hte with heq | hmem
      · subst heq
        exact emit_contains_bottom hI hf
      · obtain ⟨s, h1, h2⟩ := ih d1 hI1 te hmem
        rw [hmt] at h2
        exact ⟨s, h1, h2⟩

theorem runFeed_first_emission_head_top {J : Type} :
    ∀ (inputs : List ((J → Option ℚ) × ℚ)) (d : Detector J), InvTop d →
      ∀ t e, (runFeed d inputs).2.head? = some (t, e) →
        ∃ s rest, e = s :: rest ∧ d.max_threshold ≤ s.angle := by
  intro inputs
  induction inputs with
  | nil =>
    intro d _ t e hte
    simp [runFeed] at hte
  | cons x rest ih =>
    intro d hI t e hte
    obtain ⟨ja, t0⟩ := x
    rcases hf : feed d ja t0 with ⟨d1, ev⟩
    have hMt : d1.max_threshold = d.max_threshold := by
      have hff := (feed_fields d ja t0).2
      rw [hf] at hff
      exact hff
    cases ev with
    | none =>
      rw [runFeed_cons_none hf] at hte
      have hI1 : InvTop d1 := by
        have hit := feed_invTop_none d ja t0 hI (by rw [hf])
        rw [hf] at hit
        exact hit
      obtain ⟨s, r, h1, h2⟩ := ih d1 hI1 t e hte
      rw [hMt] at h2
      exact ⟨s, r, h1, h2⟩
    | some e0 =>
      rw [runFeed_cons_some hf] at hte
      simp only [List.head?_cons, Option.some.injEq] at hte
      obtain ⟨rfl, rfl⟩ := Prod.mk.injEq .. ▸ hte
      exact emit_head_top hI hf

theorem foldl_min_le_init (l : List ℚ) (a : ℚ) : l.foldl min a ≤ a := by
  induction l generalizing a with
  | nil => exact le_refl a
  | cons c l ih => exact le_trans (ih (min a c)) (min_le_left a c)

theorem foldl_min_le_mem (l : List ℚ) (a b : ℚ) (hb : b ∈ l) :
    l.foldl min a ≤ b := by
  induction l generalizing a with
  | nil => cases hb
  | cons c l ih =>
    rcases List.mem_cons.mp hb with rfl | hb2
    · exact le_trans (foldl_min_le_init l (min a b)) (min_le_right a b)
    · exact ih (min a c) hb2

theorem foldl_min_mem (l : List ℚ) (a : ℚ) :
    l.foldl min a = a ∨ l.foldl min a ∈ l := by
  induction l generalizing a with
  | nil => exact Or.inl rfl
  | cons c l ih =>
    rcases ih (min a c) with h | h
    · rcases min_choice a c with hm | hm
      · exact Or.inl (by rw [List.foldl_cons, h, hm])
      · exact Or.inr (by rw [List.foldl_cons, h, hm]; exact List.mem_cons_self c l)
    · exact Or.inr (List.mem_cons_of_mem c h)

theorem foldl_max_init_le (l : List ℚ) (a : ℚ) : a ≤ l.foldl max a := by
  induction l generalizing a with
  | nil => exact le_refl a
  | cons c l ih => exact le_trans (le_max_left a c) (ih (max a c))

theorem foldl_max_mem_le (l : List ℚ) (a b : ℚ) (hb : b ∈ l) :
    b ≤ l.foldl max a := by
  induction l generalizing a with
  | nil => cases hb
  | cons c l ih =>
    rcases List.mem_cons.mp hb with rfl | hb2
    · exact le_trans (le_max_right a b) (foldl_max_init_le l (max a b))
    · exact ih (max a c) hb2

theorem foldl_max_mem (l : List ℚ) (a : ℚ) :
    l.foldl max a = a ∨ l.foldl max a ∈ l := by
  induction l generalizing a with
  | nil => exact Or.inl rfl
  | cons c l ih =>
    rcases ih (max a c) with h | h
    · rcases max_choice a c with hm | hm
      · exact Or.inl (by rw [List.foldl_cons, h, hm])
      · exact Or.inr (by rw [List.foldl_cons, h, hm]; exact List.mem_cons_self c l)
    · exact Or.inr (List.mem_cons_of_mem c h)

/-- C4 counterexample: the sequence `150, 150, 100, absent, 110` reaches
`BOTTOM_REACHED` before the gap, and the first present-angle feed after
the gap (angle 110 at t=400) is compared against the pre-gap
`prev_angle = 100` and triggers the `BOTTOM_REACHED → ASCENDING`
transition — it does not merely seed `prev_angle`. -/
theorem c4_counterexample_gap_triggers_transition :
    (runFeed (mkDetector 120 145 ((0 : ℕ), 1))
      [(mkJA 150, 0), (mkJA 150, 100), (mkJA 100, 200),
       (fun _ => none, 300)]).1.state = DetState.BOTTOM_REACHED ∧
    (runFeed (mkDetector 120 145 ((0 : ℕ), 1))
      [(mkJA 150, 0), (mkJA 150, 100), (mkJA 100, 200),
       (fun _ => none, 300), (mkJA 110, 400)]).1.state =
      DetState.ASCENDING := by decide

/-- C4 (amended): only a present angle fed while `prev_angle` is still
unset merely seeds `prev_angle` without transition or emission; an
absent-angle gap leaves the whole detector — `prev_angle` included —
untouched, so the first present feed after a gap is processed by the state
machine against the last pre-gap angle. -/
theorem c4_amended_gap_semantics :
    (∀ (J : Type) (d : Detector J) (ja : J → Option ℚ) (t a : ℚ),
        d.prev_angle = none → getAngle d ja = some a →
        feed d ja t = ({ d with prev_angle := some a }, none)) ∧
    (∀ (J : Type) (d : Detector J) (ja : J → Option ℚ) (t : ℚ),
        getAngle d ja = none → feed d ja t = (d, none)) ∧
    (∀ (J : Type) (d : Detector J) (ja : J → Option ℚ) (t a p : ℚ),
        d.prev_angle = some p → getAngle d ja = some a →
        feed d ja t = stepMachine d a p t) := by
  refine ⟨?_, ?_, ?_⟩
  · intro _ d ja t a hp hg
    simp [feed, hg, hp]
  · intro _ d ja t hg
    exact feed_absent d ja t hg
  · intro _ d ja t a p hp hg
    simp [feed, hg, hp]

/-- Witness for C4 (amended): a seeding feed, an absent feed, and a
seeded feed running the state machine, at concrete inputs. -/
theorem c4_amended_gap_semantics_witness :
    (feed (mkDetector 120 145 ((0 : ℕ), 1)) (mkJA 150) 0 =
      ({ mkDetector 120 145 ((0 : ℕ), 1) with prev_angle := some 150 }, none)) ∧
    (feed (mkDetector 120 145 ((0 : ℕ), 1)) (fun _ => none) 5 =
      (mkDetector 120 145 ((0 : ℕ), 1), none)) ∧
    (feed (⟨120, 145, ((0 : ℕ), 1), DetState.BOTTOM_REACHED, some 100, []⟩ : Detector ℕ)
        (mkJA 110) 400 =
      stepMachine (⟨120, 145, ((0 : ℕ), 1), DetState.BOTTOM_REACHED, some 100, []⟩ : Detector ℕ)
        110 100 400) :=
  ⟨c4_amended_gap_semantics.1 ℕ (mkDetector 120 145 ((0 : ℕ), 1)) (mkJA 150) 0 150
      rfl (by decide),
   c4_amended_gap_semantics.2.1 ℕ (mkDetector 120 145 ((0 : ℕ), 1)) (fun _ => none) 5 rfl,
   c4_amended_gap_semantics.2.2 ℕ
      (⟨120, 145, ((0 : ℕ), 1), DetState.BOTTOM_REACHED, some 100, []⟩ : Detector ℕ)
      (mkJA 110) 400 110 100 rfl (by decide)⟩

/-- C5 counterexample: continuing the C1 scenario with a second
back-to-back cycle `130, 115, 125, 150`, the second emitted rep's first
sample has angle 130, strictly below `max_threshold = 145` — emitted reps
are not always bounded by a top crossing at the start. -/
theorem c5_counterexample_second_rep_starts_low :
    (runFeed (mkDetector 120 145 ((0 : ℕ), 1))
      (toInputs [(110, 0), (125, 100), (145, 200), (130, 300),
                 (115, 400), (120, 500), (140, 600), (150, 700),
                 (130, 800), (115, 900), (125, 1000), (150, 1100)])).2 =
      [(700, [⟨145, 200⟩, ⟨130, 300⟩, ⟨115, 400⟩, ⟨120, 500⟩,
              ⟨140, 600⟩, ⟨150, 700⟩]),
       (1100, [⟨130, 800⟩, ⟨115, 900⟩, ⟨125, 1000⟩, ⟨150, 1100⟩])] ∧
    ((130 : ℚ) < 145) := by decide

/-- C5 (amended): every emitted rep is non-empty and ends with a sample at
or above `max_threshold` (the closing top crossing); the FIRST rep of a
run — accumulated from `WAITING_TOP` — also begins with a sample at or
above `max_threshold`, but later back-to-back reps need not (their
accumulation restarts empty in `DESCENDING` right after an emission). -/
theorem c5_amended_rep_boundaries :
    (∀ (J : Type) (d d' : Detector J) (ja : J → Option ℚ) (t : ℚ)
        (e : List Sample), feed d ja t = (d', some e) →
        ∃ s, e.getLast? = some s ∧ d.max_threshold ≤ s.angle) ∧
    (∀ (J : Type) (minT maxT : ℚ) (js : J × J)
        (inputs : List ((J → Option ℚ) × ℚ)) (t : ℚ) (e : List Sample),
        (runFeed (mkDetector minT maxT js) inputs).2.head? = some (t, e) →
        ∃ s rest, e = s :: rest ∧ maxT ≤ s.angle) := by
  constructor
  · intro _ d d' ja t e h
    exact emit_last_top h
  · intro J minT maxT js inputs t e h
    have hm := runFeed_first_emission_head_top inputs (mkDetector minT maxT js)
      (Or.inl rfl) t e h
    simpa [mkDetector] using hm

/-- Witness for C5 (amended): a concrete emitting feed call, and the first
emission of the C1 run. -/
theorem c5_amended_rep_boundaries_witness :
    (∃ s, ([⟨145, 0⟩, ⟨150, 1⟩] : List Sample).getLast? = some s ∧
      (145 : ℚ) ≤ s.angle) ∧
    (∃ s rest,
      [(⟨145, 200⟩ : Sample), ⟨130, 300⟩, ⟨115, 400⟩, ⟨120, 500⟩,
       ⟨140, 600⟩, ⟨150, 700⟩] = s :: rest ∧ (145 : ℚ) ≤ s.angle) :=
  ⟨c5_amended_rep_boundaries.1 ℕ
      (⟨120, 145, (0, 1), DetState.ASCENDING, some 140, [⟨145, 0⟩]⟩ : Detector ℕ)
      (⟨120, 145, (0, 1), DetState.DESCENDING, some 150, []⟩ : Detector ℕ)
      (mkJA 150) 1 [⟨145, 0⟩, ⟨150, 1⟩] (by decide),
   c5_amended_rep_boundaries.2 ℕ 120 145 (0, 1)
      (toInputs [(110, 0), (125, 100), (145, 200), (130, 300),
                 (115, 400), (120, 500), (140, 600), (150, 700)])
      700
      [⟨145, 200⟩, ⟨130, 300⟩, ⟨115, 400⟩, ⟨120, 500⟩, ⟨140, 600⟩, ⟨150, 700⟩]
      (by decide)⟩

/-- C7: `rep_summary` on a non-empty sample list returns the minimum and
maximum angle (attained and bounding), the first-to-last elapsed time
divided by 1000, `range_of_motion = max_angle - min_angle`, and
`num_frames` the number of samples; identical inputs give identical
results. -/
theorem c7_rep_summary_correct (rep : List Sample) (h : rep ≠ []) :
    ∃ sum, rep_summary rep = some sum ∧
      sum.min_angle ∈ rep.map Sample.angle ∧
      (∀ a ∈ rep.map Sample.angle, sum.min_angle ≤ a) ∧
      sum.max_angle ∈ rep.map Sample.angle ∧
      (∀ a ∈ rep.map Sample.angle, a ≤ sum.max_angle) ∧
      sum.duration = ((rep.getLast h).timestamp - (rep.head h).timestamp) / 1000 ∧
      sum.range_of_motion = sum.max_angle - sum.min_angle ∧
      sum.num_frames = rep.length ∧
      (∀ rep2, rep = rep2 → rep_summary rep = rep_summary rep2) := by
  cases rep with
  | nil => exact absurd rfl h
  | cons p ps =>
    refine ⟨_, rfl, ?_, ?_, ?_, ?_, rfl, rfl, rfl, fun rep2 hr => by rw [hr]⟩
    · rcases foldl_min_mem (ps.map Sample.angle) p.angle with h1 | h1
      · rw [List.map_cons, h1]
        exact List.mem_cons_self _ _
      · rw [List.map_cons]
        exact List.mem_cons_of_mem _ h1
    · intro a ha
      rw [List.map_cons] at ha
      rcases List.mem_cons.mp ha with rfl | ha2
      · exact foldl_min_le_init _ _
      · exact foldl_min_le_mem _ _ _ ha2
    · rcases foldl_max_mem (ps.map Sample.angle) p.angle with h1 | h1
      · rw [List.map_cons, h1]
        exact List.mem_cons_self _ _
      · rw [List.map_cons]
        exact List.mem_cons_of_mem _ h1
    · intro a ha
      rw [List.map_cons] at ha
      rcases List.mem_cons.mp ha with rfl | ha2
      · exact foldl_max_init_le _ _
      · exact foldl_max_mem_le _ _ _ ha2

/-- Witness for C7 at a two-sample rep. -/
theorem c7_rep_summary_correct_witness :
    ∃ sum, rep_summary [⟨1, 0⟩, ⟨3, 1000⟩] = some sum ∧
      sum.min_angle ∈ ([⟨1, 0⟩, ⟨3, 1000⟩] : List Sample).map Sample.angle ∧
      (∀ a ∈ ([⟨1, 0⟩, ⟨3, 1000⟩] : List Sample).map Sample.angle,
        sum.min_angle ≤ a) ∧
      sum.max_angle ∈ ([⟨1, 0⟩, ⟨3, 1000⟩] : List Sample).map Sample.angle ∧
      (∀ a ∈ ([⟨1, 0⟩, ⟨3, 1000⟩] : List Sample).map Sample.angle,
        a ≤ sum.max_angle) ∧
      sum.duration =
        ((([⟨1, 0⟩, ⟨3, 1000⟩] : List Sample).getLast (by simp)).timestamp -
          (([⟨1, 0⟩, ⟨3, 1000⟩] : List Sample).head (by simp)).timestamp) / 1000 ∧
      sum.range_of_motion = sum.max_angle - sum.min_angle ∧
      sum.num_frames = ([⟨1, 0⟩, ⟨3, 1000⟩] : List Sample).length ∧
      (∀ rep2, ([⟨1, 0⟩, ⟨3, 1000⟩] : List Sample) = rep2 →
        rep_summary [⟨1, 0⟩, ⟨3, 1000⟩] = rep_summary rep2) :=
  c7_rep_summary_correct [⟨1, 0⟩, ⟨3, 1000⟩] (by simp)

/-- C10 (implicit): every rep emitted by a run from a fresh detector is
non-empty, ends with a sample at or above `max_threshold`, contains a
sample at or below `min_threshold`; hence its summary satisfies
`min_angle ≤ min_threshold`, `max_angle ≥ max_threshold` and
`range_of_motion ≥ max_threshold - min_threshold`. -/
theorem c10_emitted_rep_bounds {J : Type} (minT maxT : ℚ) (js : J × J)
    (inputs : List ((J → Option ℚ) × ℚ)) (te : ℚ × List Sample)
    (hmem : te ∈ (runFeed (mkDetector minT maxT js) inputs).2)
    (_hminmax : minT ≤ maxT) :
    te.2 ≠ [] ∧
    (∃ s, te.2.getLast? = some s ∧ maxT ≤ s.angle) ∧
    (∃ s ∈ te.2, s.angle ≤ minT) ∧
    (∀ sum, rep_summary te.2 = some sum →
      sum.min_angle ≤ minT ∧ maxT ≤ sum.max_angle ∧
        maxT - minT ≤ sum.range_of_motion) := by
  have hlast := runFeed_emissions_last_top inputs (mkDetector minT maxT js) te hmem
  have hbot := runFeed_emissions_bottom inputs (mkDetector minT maxT js)
    (fun hss => by rcases hss with h1 | h1 <;> simp [mkDetector] at h1) te hmem
  simp only [mkDetector] at hlast hbot
  obtain ⟨sl, hsl1, hsl2⟩ := hlast
  obtain ⟨sb, hsb1, hsb2⟩ := hbot
  refine ⟨?_, ⟨sl, hsl1, hsl2⟩, ⟨sb, hsb1, hsb2⟩, ?_⟩
  · intro hnil
    rw [hnil] at hsl1
    simp at hsl1
  · intro sum hsum
    rcases hrep : te.2 with _ | ⟨p, ps⟩
    · rw [hrep] at hsum
      simp [rep_summary] at hsum
    · rw [hrep] at hsum hsl1 hsb1
      have hsum2 : sum = ⟨(ps.map Sample.angle).foldl min p.angle,
          (ps.map Sample.angle).foldl max p.angle,
          (((p :: ps).getLast (List.cons_ne_nil p ps)).timestamp - p.timestamp) / 1000,
          (ps.map Sample.angle).foldl max p.angle -
            (ps.map Sample.angle).foldl min p.angle,
          (p :: ps).length⟩ := by
        simp only [rep_summary] at hsum
        exact (Option.some.inj hsum).symm
      have hmin : sum.min_angle ≤ minT := by
        rw [hsum2]
        rcases List.mem_cons.mp hsb1 with rfl | hmem2
        · exact le_trans (foldl_min_le_init _ _) hsb2
        · exact le_trans
            (foldl_min_le_mem _ _ _ (List.mem_map_of_mem Sample.angle hmem2)) hsb2
      have hmax : maxT ≤ sum.max_angle := by
        rw [hsum2]
        have hslmem : sl ∈ p :: ps := List.mem_of_mem_getLast? hsl1
        rcases List.mem_cons.mp hslmem with rfl | hmem2
        · exact le_trans hsl2 (foldl_max_init_le _ _)
        · exact le_trans hsl2
            (foldl_max_mem_le _ _ _ (List.mem_map_of_mem Sample.angle hmem2))
      refine ⟨hmin, hmax, ?_⟩
      have hrom : sum.range_of_motion = sum.max_angle - sum.min_angle := by
        rw [hsum2]
      rw [hrom]
      exact sub_le_sub hmax hmin

/-- Witness for C10 at the C1 scenario's emitted rep. -/
theorem c10_emitted_rep_bounds_witness :
    ((700 : ℚ),
      ([⟨145, 200⟩, ⟨130, 300⟩, ⟨115, 400⟩, ⟨120, 500⟩,
        ⟨140, 600⟩, ⟨150, 700⟩] : List Sample)).2 ≠ [] ∧
    (∃ s, ((700 : ℚ),
      ([⟨145, 200⟩, ⟨130, 300⟩, ⟨115, 400⟩, ⟨120, 500⟩,
        ⟨140, 600⟩, ⟨150, 700⟩] : List Sample)).2.getLast? = some s ∧
      (145 : ℚ) ≤ s.angle) ∧
    (∃ s ∈ ((700 : ℚ),
      ([⟨145, 200⟩, ⟨130, 300⟩, ⟨115, 400⟩, ⟨120, 500⟩,
        ⟨140, 600⟩, ⟨150, 700⟩] : List Sample)).2, s.angle ≤ (120 : ℚ)) ∧
    (∀ sum, rep_summary ((700 : ℚ),
      ([⟨145, 200⟩, ⟨130, 300⟩, ⟨115, 400⟩, ⟨120, 500⟩,
        ⟨140, 600⟩, ⟨150, 700⟩] : List Sample)).2 = some sum →
      sum.min_angle ≤ (120 : ℚ) ∧ (145 : ℚ) ≤ sum.max_angle ∧
        (145 : ℚ) - 120 ≤ sum.range_of_motion) :=
  c10_emitted_rep_bounds 120 145 ((0 : ℕ), 1)
    (toInputs [(110, 0), (125, 100), (145, 200), (130, 300),
               (115, 400), (120, 500), (140, 600), (150, 700)])
    (700, [⟨145, 200⟩, ⟨130, 300⟩, ⟨115, 400⟩, ⟨120, 500⟩,
           ⟨140, 600⟩, ⟨150, 700⟩])
    (by decide) (by decide)

/-- C8: `GET /cv-stream` answers 200 with content type
`multipart/x-mixed-replace; boundary=frame`; each streamed part carries
`Content-Type: image/jpeg` and a `Content-Length` equal to the number of
JPEG bytes, followed by exactly those bytes; any other path gets 404; and
`OPTIONS` gets 204 with `Access-Control-Allow-Origin: *`. -/
theorem c8_http_handler_contract :
    (do_GET ("/cv-stream")).status = 200 ∧
    ("Content-Type", "multipart/x-mixed-replace; boundary=frame") ∈
      (do_GET ("/cv-stream")).headers ∧
    (∀ p : String, p ≠ "/cv-stream" → do_GET p = ⟨404, []⟩) ∧
    do_OPTIONS.status = 204 ∧
    ("Access-Control-Allow-Origin", "*") ∈ do_OPTIONS.headers ∧
    (∀ jpeg : List ℕ, (mjpegPart jpeg).part_content_type = "image/jpeg" ∧
      (mjpegPart jpeg).part_content_length = jpeg.length ∧
      (mjpegPart jpeg).part_body = jpeg) := by
  refine ⟨by decide, by decide, ?_, rfl, by decide, fun jpeg => ⟨rfl, rfl, rfl⟩⟩
  intro p hp
  simp [do_GET, hp]

/-- Witness for C8: a non-stream path gets the 404 response. -/
theorem c8_http_handler_contract_witness :
    do_GET ("/other") = ⟨404, []⟩ :=
  c8_http_handler_contract.2.2.1 ("/other") (by decide)

/-- C9 counterexample: with the camera unavailable (`camera_ok = false`),
`LiveSessionPage.start` still returns with `is_running = true` and the CV
worker thread started — the source sets the flag and starts the thread
unconditionally, before any camera check can happen — and
`cv_stream_server.main` spawns its worker thread before the camera open
is even attempted inside it. -/
theorem c9_counterexample_start_ignores_camera :
    (LiveSessionPage.start ⟨none, 0, false, false, false, false⟩
      ("pushups") false).is_running = true ∧
    (LiveSessionPage.start ⟨none, 0, false, false, false, false⟩
      ("pushups") false).cv_thread_started = true ∧
    mainEvents false =
      [ServerEvent.spawn_worker, ServerEvent.cv_init_failed,
       ServerEvent.serve] := by decide

/-- C9 (amended): `start` sets `is_running = true` and starts the CV
worker thread unconditionally, whatever the camera state; a later camera
failure is reported through the error signal, whose handler leaves the
session state unchanged; and in `cv_stream_server.main` the worker thread
is spawned before the camera open is attempted. -/
theorem c9_amended_start_unconditional (s : SessionState) (wid : String)
    (cam : Bool) :
    (LiveSessionPage.start s wid cam).is_running = true ∧
    (LiveSessionPage.start s wid cam).cv_thread_started = true ∧
    onError (LiveSessionPage.start s wid cam) = LiveSessionPage.start s wid cam ∧
    (mainEvents false).head? = some ServerEvent.spawn_worker :=
  ⟨rfl, rfl, rfl, rfl⟩
